import Mathlib

/-!
Verification of the Intent-Gated Mutation Governance Engine
(hook engine, orchestration data model, intent-selection tool).

The definitions below are a shallow embedding of the TypeScript sources
`src/hooks/HookEngine.ts`, `src/hooks/OrchestrationDataModel.ts` and
`src/hooks/SelectActiveIntentTool.ts`.  Stateful code is rendered as
explicit state passing; the filesystem is a partial map from relative
paths to contents (`none` models a missing / removed file, i.e. ENOENT);
the VS Code approval dialog and the clock are inputs of the environment.
-/

namespace Orchestration

/-- Modelled from the spec: the ContentHasher (`node:crypto` SHA-256, an
external platform library, §4.1) is a deterministic, collision-resistant
one-way digest.  We model it as the identity fingerprint on strings,
which is deterministic and injective (idealized collision freedom);
no claim in this development depends on any other property of SHA-256. -/
def computeContentHash (content : String) : String := content

/-- JavaScript `\s` whitespace class, restricted to its ASCII members
(space, tab, newline, carriage return, vertical tab, form feed).
The Unicode space characters matched by `\s` do not occur in any input
considered here. -/
def isJsWs (c : Char) : Bool :=
  c = ' ' || c = '\t' || c = '\n' || c = '\r' || c = '\x0b' || c = '\x0c'

/-- Helper for `collapseWs`: the flag records whether the previous
character belonged to a whitespace run already emitted as one space. -/
def collapseWsAux : Bool → List Char → List Char
  | _, [] => []
  | inWs, c :: rest =>
    if isJsWs c then
      if inWs then collapseWsAux true rest
      else ' ' :: collapseWsAux true rest
    else c :: collapseWsAux false rest

/-- One pass of `content.replace(/\s+/g, " ")`: every maximal run of
whitespace collapses to a single space. -/
def collapseWs (l : List Char) : List Char := collapseWsAux false l

/-- JavaScript `String.prototype.trim` (over the ASCII whitespace class). -/
def jsTrim (l : List Char) : List Char :=
  ((l.dropWhile isJsWs).reverse.dropWhile isJsWs).reverse

/-- `content.replace(/\s+/g, " ").trim()` as used by `classifyMutation`. -/
def normalizeWs (s : String) : String :=
  ⟨jsTrim (collapseWs s.data)⟩

/-! ### Levenshtein distance: the implementation's dynamic program

`OrchestrationDataModel.levenshteinDistance` fills the Wagner–Fischer
table row by row: `dp[0][j] = j`, `dp[i][0] = i`, and
`dp[i][j] = dp[i-1][j-1]` when `str1[i-1] = str2[j-1]`, else
`1 + min(dp[i-1][j], dp[i][j-1], dp[i-1][j-1])`; the answer is `dp[m][n]`.
`levRowGo` produces the entries `dp[i][1..n]` of one row from the previous
row, consuming `str2` and the previous row in lockstep. -/

def levRowGo (c1 : Char) : List Char → List Nat → Nat → List Nat
  | c2 :: s2rest, diag :: prevRest, left =>
    let cur :=
      if c1 = c2 then diag
      else min (min ((prevRest.headD 0) + 1) (left + 1)) (diag + 1)
    cur :: levRowGo c1 s2rest prevRest cur
  | _, _, _ => []

/-- Fold `levRowGo` over the characters of `str1`, threading the row and
the row index `i` (which is also `dp[i][0]`). -/
def levRows (s2 : List Char) : List Char → List Nat → Nat → List Nat
  | [], prev, _ => prev
  | c :: s1rest, prev, i => levRows s2 s1rest (i :: levRowGo c s2 prev i) (i + 1)

/-- `OrchestrationDataModel.levenshteinDistance`: the row-by-row dynamic
program of the source, returning `dp[m][n]`. -/
def levenshteinDistance (str1 str2 : String) : Nat :=
  (levRows str2.data str1.data (List.range (str2.data.length + 1)) 1).getLastD 0

/-! ### The classic minimum-edit-operations distance

`editDist` is the textbook Levenshtein recursion over characters with
unit-cost insertion, deletion and substitution.  It is the specification
the claims refer to by "classic minimum-edit-operations distance". -/

def editDist : List Char → List Char → Nat
  | [], ys => ys.length
  | x :: xs, [] => (x :: xs).length
  | x :: xs, y :: ys =>
    if x = y then editDist xs ys
    else 1 + min (editDist xs (y :: ys)) (min (editDist (x :: xs) ys) (editDist xs ys))
termination_by xs ys => xs.length + ys.length
decreasing_by all_goals simp_arith

theorem editDist_nil_left (ys : List Char) : editDist [] ys = ys.length := by
  cases ys <;> simp [editDist]

theorem editDist_nil_right (xs : List Char) : editDist xs [] = xs.length := by
  cases xs <;> simp [editDist]

theorem editDist_cons_cons (x y : Char) (xs ys : List Char) :
    editDist (x :: xs) (y :: ys) =
      if x = y then editDist xs ys
      else 1 + min (editDist xs (y :: ys))
        (min (editDist (x :: xs) ys) (editDist xs ys)) := by
  rw [editDist]

/-- The edit distance never exceeds the length of the longer word. -/
theorem editDist_le_max (xs ys : List Char) :
    editDist xs ys ≤ max xs.length ys.length := by
  induction xs generalizing ys with
  | nil => simp [editDist_nil_left]
  | cons x xs ih =>
    cases ys with
    | nil => simp [editDist_nil_right]
    | cons y ys =>
      rw [editDist_cons_cons]
      split
      · have := ih ys
        simp only [List.length_cons]
        omega
      · have h1 := ih (y :: ys)
        have h3 := ih ys
        simp only [List.length_cons] at *
        omega

section EditDistTheory

/-- Edit distance is symmetric in its two arguments. -/
theorem editDist_comm (xs ys : List Char) : editDist xs ys = editDist ys xs := by
  induction xs generalizing ys with
  | nil => simp [editDist_nil_left, editDist_nil_right]
  | cons x xs ihx =>
    induction ys with
    | nil => simp [editDist_nil_left, editDist_nil_right]
    | cons y ys ihy =>
      rw [editDist_cons_cons, editDist_cons_cons, ihx (y :: ys), ihx ys, ihy]
      by_cases h : x = y
      · simp [h]
      · have h' : ¬ y = x := fun hy => h hy.symm
        rw [if_neg h, if_neg h']
        omega

/-- The snoc form of the Levenshtein recurrence, singleton case. -/
theorem editDist_singleton_snoc (a b : Char) (ys : List Char) :
    editDist [a] (ys ++ [b]) =
      if a = b then editDist [] ys
      else 1 + min (editDist [] (ys ++ [b])) (min (editDist [a] ys) (editDist [] ys)) := by
  induction ys with
  | nil => simp [editDist_cons_cons, editDist_nil_left, editDist_nil_right]
  | cons y ys ih =>
    rw [List.cons_append, editDist_cons_cons, ih, editDist_cons_cons a y [] ys]
    by_cases hay : a = y
    · by_cases hab : a = b
      · rw [if_pos hay, if_pos hab]
        simp [editDist_nil_left]
      · rw [if_pos hay, if_neg hab, if_pos hay]
        simp only [editDist_nil_left, List.length_append, List.length_cons, List.length_nil]
        omega
    · by_cases hab : a = b
      · rw [if_neg hay, if_pos hab, if_pos hab]
        simp only [editDist_nil_left, List.length_append, List.length_cons, List.length_nil]
        omega
      · rw [if_neg hay, if_neg hab, if_neg hab, if_neg hay]
        simp only [editDist_nil_left, List.length_append, List.length_cons, List.length_nil]

/-- The snoc form of the Levenshtein recurrence, other singleton case. -/
theorem editDist_snoc_singleton (a b : Char) (xs : List Char) :
    editDist (xs ++ [a]) [b] =
      if a = b then editDist xs []
      else 1 + min (editDist xs [b]) (min (editDist (xs ++ [a]) []) (editDist xs [])) := by
  rw [editDist_comm, editDist_singleton_snoc b a xs]
  by_cases hab : a = b
  · simp [hab, editDist_comm]
  · have hba : ¬ b = a := fun h => hab h.symm
    rw [if_neg hba, if_neg hab, editDist_comm xs [b],
      editDist_nil_left, editDist_nil_right, editDist_comm xs []]
    simp only [List.length_append, List.length_cons, List.length_nil, editDist_nil_left]
    omega

/-- Regrouping nine values under nested minima: both sides are
`2 + min` of the same nine values. -/
theorem add_min_regroup (a1 a2 a3 a4 a5 a6 a7 a8 a9 : Nat) :
    1 + min (1 + min a6 (min a7 a2)) (min (1 + min a8 (min a9 a3)) (1 + min a4 (min a5 a1))) =
    1 + min (1 + min a6 (min a8 a4)) (min (1 + min a7 (min a9 a5)) (1 + min a2 (min a3 a1))) := by
  simp only [← min_add_add_left]
  ac_rfl

/-- The snoc form of the full Levenshtein recurrence: the classic
cons-cons recurrence also holds when appending at the right end. -/
theorem editDist_snoc_snoc (a b : Char) (xs ys : List Char) :
    editDist (xs ++ [a]) (ys ++ [b]) =
      if a = b then editDist xs ys
      else 1 + min (editDist xs (ys ++ [b]))
        (min (editDist (xs ++ [a]) ys) (editDist xs ys)) := by
  have main : ∀ n xs ys, List.length xs + List.length ys = n →
      editDist (xs ++ [a]) (ys ++ [b]) =
        if a = b then editDist xs ys
        else 1 + min (editDist xs (ys ++ [b]))
          (min (editDist (xs ++ [a]) ys) (editDist xs ys)) := by
    intro n
    induction n using Nat.strong_induction_on with
    | _ n ih =>
      intro xs ys hn
      match xs, ys with
      | [], ys => simpa using editDist_singleton_snoc a b ys
      | x :: xs, [] => exact editDist_snoc_singleton a b (x :: xs)
      | x :: xs, y :: ys =>
        have IH1 := ih (xs.length + ys.length) (by simp at hn; omega) xs ys rfl
        have IH2 := ih (xs.length + (y :: ys).length) (by simp at hn ⊢; omega) xs (y :: ys) rfl
        have IH3 := ih ((x :: xs).length + ys.length) (by simp at hn ⊢; omega) (x :: xs) ys rfl
        simp only [List.cons_append] at IH2 IH3 ⊢
        rw [editDist_cons_cons x y (xs ++ [a]) (ys ++ [b]), IH1, IH2, IH3,
          editDist_cons_cons x y xs ys, editDist_cons_cons x y xs (ys ++ [b]),
          editDist_cons_cons x y (xs ++ [a]) ys]
        by_cases hxy : x = y <;> by_cases hab : a = b
        · subst hxy; subst hab
          simp only [eq_self_iff_true, ite_true]
        · subst hxy
          simp only [eq_self_iff_true, ite_true, if_neg hab]
        · subst hab
          simp only [eq_self_iff_true, ite_true, if_neg hxy]
        · simp only [if_neg hxy, if_neg hab]
          exact add_min_regroup (editDist xs ys) (editDist xs (y :: ys)) (editDist (x :: xs) ys)
            (editDist xs (ys ++ [b])) (editDist (xs ++ [a]) ys) (editDist xs (y :: (ys ++ [b])))
            (editDist (xs ++ [a]) (y :: ys)) (editDist (x :: xs) (ys ++ [b]))
            (editDist (x :: (xs ++ [a])) ys)
  exact main (xs.length + ys.length) xs ys rfl

/-- Edit distance is invariant under reversing both words. -/
theorem editDist_reverse (xs ys : List Char) :
    editDist xs.reverse ys.reverse = editDist xs ys := by
  have main : ∀ n xs ys, List.length xs + List.length ys = n →
      editDist (List.reverse xs) (List.reverse ys) = editDist xs ys := by
    intro n
    induction n using Nat.strong_induction_on with
    | _ n ih =>
      intro xs ys hn
      match xs, ys with
      | [], ys => simp [editDist_nil_left]
      | x :: xs, [] => simp [editDist_nil_right]
      | x :: xs, y :: ys =>
        have IH1 := ih (xs.length + ys.length) (by simp at hn; omega) xs ys rfl
        have IH2 := ih (xs.length + (y :: ys).length) (by simp at hn ⊢; omega) xs (y :: ys) rfl
        have IH3 := ih ((x :: xs).length + ys.length) (by simp at hn ⊢; omega) (x :: xs) ys rfl
        rw [List.reverse_cons, List.reverse_cons, editDist_snoc_snoc,
          editDist_cons_cons x y xs ys]
        rw [show ys.reverse ++ [y] = (y :: ys).reverse by simp,
          show xs.reverse ++ [x] = (x :: xs).reverse by simp, IH1, IH2, IH3]
  exact main (xs.length + ys.length) xs ys rfl

/-! ### The dynamic program computes the classic distance -/

/-- `distRow u w t` is the list of edit distances from `u` to
`w, t₀ :: w, t₁ :: t₀ :: w, …` — i.e. one row of the Wagner–Fischer
table, indexed by how much of `t` has been prepended onto `w`. -/
def distRow (u w : List Char) : List Char → List Nat
  | [] => [editDist u w]
  | c :: t => editDist u w :: distRow u (c :: w) t

theorem distRow_headD (u w : List Char) (t : List Char) :
    (distRow u w t).headD 0 = editDist u w := by
  cases t <;> rfl

theorem distRow_shape (u w : List Char) (t : List Char) :
    distRow u w t = editDist u w :: (distRow u w t).tail := by
  cases t <;> rfl

/-- One `levRowGo` pass maps the row for `u` to the row for `c :: u`. -/
theorem levRowGo_spec (c : Char) (t : List Char) : ∀ (u w : List Char),
    levRowGo c t (distRow u w t) (editDist (c :: u) w) = (distRow (c :: u) w t).tail := by
  induction t with
  | nil => intro u w; rfl
  | cons c2 t' ih =>
    intro u w
    have hcur :
        (if c = c2 then editDist u w
          else min (min (((distRow u (c2 :: w) t').headD 0) + 1) (editDist (c :: u) w + 1))
            (editDist u w + 1)) = editDist (c :: u) (c2 :: w) := by
      rw [distRow_headD, editDist_cons_cons]
      by_cases h : c = c2
      · simp [h]
      · rw [if_neg h, if_neg h]; omega
    rw [distRow, levRowGo]
    rw [hcur, ih u (c2 :: w)]
    exact (distRow_shape (c :: u) (c2 :: w) t').symm

/-- Folding the rows turns the row for `u` into the row for the
reversal of the consumed part of `str1` prepended onto `u`. -/
theorem levRows_spec (s2 : List Char) : ∀ (s1rest u : List Char),
    levRows s2 s1rest (distRow u [] s2) (u.length + 1) =
      distRow (s1rest.reverse ++ u) [] s2 := by
  intro s1rest
  induction s1rest with
  | nil => intro u; simp [levRows]
  | cons c rest ih =>
    intro u
    rw [levRows]
    have hrow : (u.length + 1) :: levRowGo c s2 (distRow u [] s2) (u.length + 1) =
        distRow (c :: u) [] s2 := by
      have hlen : u.length + 1 = editDist (c :: u) [] := by
        rw [editDist_nil_right]; rfl
      rw [hlen, levRowGo_spec c s2 u []]
      exact (distRow_shape (c :: u) [] s2).symm
    rw [hrow]
    have := ih (c :: u)
    simp only [List.length_cons] at this
    rw [this]
    congr 1
    simp [List.reverse_cons, List.append_assoc]

/-- The initial row `dp[0][j] = j` is the row of distances from `[]`. -/
theorem distRow_nil (t : List Char) : ∀ (w : List Char),
    distRow [] w t = (List.range (t.length + 1)).map (· + w.length) := by
  induction t with
  | nil => intro w; simp [distRow, editDist_nil_left, List.range_succ]
  | cons c t' ih =>
    intro w
    have hr : List.range (t'.length + 1 + 1) = 0 :: (List.range (t'.length + 1)).map Nat.succ :=
      List.range_succ_eq_map _
    rw [distRow, ih (c :: w)]
    simp only [List.length_cons, hr, List.map_cons, List.map_map, editDist_nil_left, Nat.zero_add]
    congr 1
    exact List.map_congr_left (fun a _ => by simp [Function.comp, Nat.succ_eq_add_one]; omega)

/-- The last entry of a row is the distance to the full reversed word. -/
theorem distRow_getLastD (t : List Char) : ∀ (u w : List Char) (d : Nat),
    (distRow u w t).getLastD d = editDist u (t.reverse ++ w) := by
  induction t with
  | nil => intro u w d; simp [distRow]
  | cons c t' ih =>
    intro u w d
    rw [distRow]
    rw [List.getLastD_cons]
    rw [ih u (c :: w)]
    congr 1
    simp [List.reverse_cons, List.append_assoc]

/-- The implementation's dynamic program computes exactly the classic
minimum-edit-operations distance over characters. -/
theorem levenshteinDistance_eq_editDist (str1 str2 : String) :
    levenshteinDistance str1 str2 = editDist str1.data str2.data := by
  rw [levenshteinDistance]
  have hinit : List.range (str2.data.length + 1) = distRow [] [] str2.data := by
    rw [distRow_nil str2.data []]
    simp
  rw [hinit]
  have h0 : (1 : Nat) = List.length ([] : List Char) + 1 := rfl
  rw [h0, levRows_spec str2.data str1.data []]
  rw [distRow_getLastD]
  rw [List.append_nil, List.append_nil]
  rw [show editDist str1.data.reverse str2.data.reverse = editDist str1.data str2.data
    from editDist_reverse str1.data str2.data]

end EditDistTheory

/-! ### Similarity and the mutation classifier -/

/-- `OrchestrationDataModel.calculateSimilarity`:
`1 - distance / maxLen`, and `1.0` when both strings are empty.
JavaScript number arithmetic is modelled exactly over the rationals. -/
def calculateSimilarity (str1 str2 : String) : ℚ :=
  let maxLen := max str1.length str2.length
  if maxLen = 0 then 1
  else 1 - (levenshteinDistance str1 str2 : ℚ) / (maxLen : ℚ)

/-- JavaScript `\w` word-character class `[A-Za-z0-9_]`. -/
def isWordChar (c : Char) : Bool := c.isAlphanum || c = '_'

/-- After one of the keywords, the regex continues `\s+\w+\s*[=:\(]`.
Returns the rest of the input after the whole match.  Since the
whitespace, word and bracket classes are pairwise disjoint, the greedy
quantifiers match exactly the maximal runs and never backtrack usefully,
so this deterministic scan is the regex's behaviour. -/
def matchAfterKeyword (l : List Char) : Option (List Char) :=
  let ws1 := l.takeWhile isJsWs
  if ws1.isEmpty then none
  else
    let r2 := l.dropWhile isJsWs
    let w := r2.takeWhile isWordChar
    if w.isEmpty then none
    else
      let r3 := (r2.dropWhile isWordChar).dropWhile isJsWs
      match r3 with
      | c :: r4 => if c = '=' || c = ':' || c = '(' then some r4 else none
      | [] => none

/-- Try one alternative of `(?:function|class|const|let|var)` at the
current position. -/
def tryKeyword (kw cs : List Char) : Option (List Char) :=
  if kw.isPrefixOf cs then matchAfterKeyword (cs.drop kw.length) else none

/-- One attempt of the declaration regex
`(?:function|class|const|let|var)\s+\w+\s*[=:\(]` at the current
position, trying the alternatives in the regex's order. -/
def matchDeclAt (cs : List Char) : Option (List Char) :=
  match tryKeyword "function".data cs with
  | some r => some r
  | none =>
    match tryKeyword "class".data cs with
    | some r => some r
    | none =>
      match tryKeyword "const".data cs with
      | some r => some r
      | none =>
        match tryKeyword "let".data cs with
        | some r => some r
        | none => tryKeyword "var".data cs

/-- Count the global (`g`-flag) matches of the declaration regex,
scanning left to right and resuming after each match, with fuel equal to
the input length (every step consumes at least one character). -/
def countDeclsAux : Nat → List Char → Nat
  | 0, _ => 0
  | _, [] => 0
  | fuel + 1, c :: rest =>
    match matchDeclAt (c :: rest) with
    | some r => 1 + countDeclsAux fuel r
    | none => countDeclsAux fuel rest

/-- `(content.match(/(?:function|class|const|let|var)\s+\w+\s*[=:\(]/g) || []).length`. -/
def countDecls (s : String) : Nat := countDeclsAux s.data.length s.data

/-- `Math.round` (round half toward positive infinity). -/
def jsRound (q : ℚ) : ℤ := ⌊q + 1/2⌋

/-- Mutation classification types (Phase 3 requirement). -/
inductive MutationClass
  | AST_REFACTOR
  | INTENT_EVOLUTION
deriving DecidableEq, Repr

/-- Confidence levels of a mutation classification. -/
inductive Confidence
  | high
  | medium
  | low
deriving DecidableEq, Repr

/-- Mutation classification result. -/
structure MutationClassification where
  mutation_class : MutationClass
  confidence : Confidence
  reason : String
deriving DecidableEq, Repr

/-- `Math.abs(oldLines.length - newLines.length) / Math.max(oldLines.length, 1)`
over the `"\n"`-split line lists of the original contents. -/
def lineCountDiffOf (oldC newC : String) : ℚ :=
  let oldLines := oldC.split (· = '\n')
  let newLines := newC.split (· = '\n')
  (((oldLines.length : ℤ) - (newLines.length : ℤ)).natAbs : ℚ) / (max oldLines.length 1 : ℚ)

/-- `(newContent.length - oldContent.length) / Math.max(oldContent.length, 1)`. -/
def contentGrowthOf (oldC newC : String) : ℚ :=
  (((newC.length : ℤ) - (oldC.length : ℤ) : ℤ) : ℚ) / (max oldC.length 1 : ℚ)

/-- `OrchestrationDataModel.classifyMutation`: AST_REFACTOR vs
INTENT_EVOLUTION (Phase 3 requirement), translated branch by branch. -/
def classifyMutation (oldContent : Option String) (newContent : String)
    (filePath : String) : MutationClassification :=
  match oldContent with
  | none => ⟨.INTENT_EVOLUTION, .high, "New file creation"⟩
  | some oldC =>
    if oldC = "" then ⟨.INTENT_EVOLUTION, .high, "New file creation"⟩
    else
      let oldNormalized := normalizeWs oldC
      let newNormalized := normalizeWs newContent
      if oldNormalized = newNormalized then
        ⟨.AST_REFACTOR, .high, "No semantic changes detected"⟩
      else
        let similarity := calculateSimilarity oldNormalized newNormalized
        if similarity > 8/10 then
          if lineCountDiffOf oldC newContent > 3/10 then
            ⟨.INTENT_EVOLUTION, .medium,
              "Significant line count change (" ++
                toString (jsRound (lineCountDiffOf oldC newContent * 100)) ++
                "%) despite high similarity"⟩
          else
            ⟨.AST_REFACTOR, if similarity > 9/10 then .high else .medium,
              "High similarity (" ++ toString (jsRound (similarity * 100)) ++
                "%) suggests refactoring"⟩
        else
          let oldMatches := countDecls oldC
          let newMatches := countDecls newContent
          if newMatches > oldMatches then
            ⟨.INTENT_EVOLUTION, .high,
              "New code definitions detected (" ++ toString (newMatches - oldMatches) ++ " new)"⟩
          else if contentGrowthOf oldC newContent > 1/2 then
            ⟨.INTENT_EVOLUTION, .medium,
              "Significant content growth (" ++
                toString (jsRound (contentGrowthOf oldC newContent * 100)) ++ "%)"⟩
          else
            ⟨if similarity < 1/2 then .INTENT_EVOLUTION else .AST_REFACTOR, .low,
              "Similarity: " ++ toString (jsRound (similarity * 100)) ++ "%"⟩

/-- The ordered decision policy exactly as the specification's §4.5
states it, written from the spec's words; to be compared with
`classifyMutation` (the translation of the source). -/
def classifyPolicySpec (previousContent : Option String) (newContent : String) :
    MutationClass × Confidence :=
  match previousContent with
  | none => (.INTENT_EVOLUTION, .high)
  | some prev =>
    if prev = "" then (.INTENT_EVOLUTION, .high)
    else if normalizeWs prev = normalizeWs newContent then (.AST_REFACTOR, .high)
    else
      let sim := calculateSimilarity (normalizeWs prev) (normalizeWs newContent)
      if sim > 8/10 then
        if lineCountDiffOf prev newContent > 3/10 then (.INTENT_EVOLUTION, .medium)
        else (.AST_REFACTOR, if sim > 9/10 then .high else .medium)
      else if countDecls newContent > countDecls prev then (.INTENT_EVOLUTION, .high)
      else if contentGrowthOf prev newContent > 1/2 then (.INTENT_EVOLUTION, .medium)
      else if sim < 1/2 then (.INTENT_EVOLUTION, .low)
      else (.AST_REFACTOR, .low)

/-- The result of `classifyMutation` does not depend on the path. -/
theorem classifyMutation_path_free (prev : Option String) (newC p q : String) :
    classifyMutation prev newC p = classifyMutation prev newC q := by
  cases prev <;> rfl

/-- C3: `classifyMutation` follows the spec's ordered decision policy
(§4.5 steps 1–6) on every input: its class and confidence agree with the
policy written from the spec's words; `classify(X, X, path)` is
`AST_REFACTOR` for any non-empty `X`; and it always returns one of the
two classes (it is a total function, hence never throws). -/
theorem classifyMutation_policy :
    (∀ (prev : Option String) (newC p : String),
        ((classifyMutation prev newC p).mutation_class,
          (classifyMutation prev newC p).confidence) = classifyPolicySpec prev newC)
    ∧ (∀ (X p : String), X ≠ "" →
        (classifyMutation (some X) X p).mutation_class = .AST_REFACTOR)
    ∧ (∀ (prev : Option String) (newC p : String),
        (classifyMutation prev newC p).mutation_class = .AST_REFACTOR ∨
          (classifyMutation prev newC p).mutation_class = .INTENT_EVOLUTION) := by
  refine ⟨?_, ?_, ?_⟩
  · intro prev newC p
    cases prev with
    | none => rfl
    | some oldC =>
      simp only [classifyMutation, classifyPolicySpec]
      split_ifs <;> rfl
  · intro X p hX
    simp only [classifyMutation, if_neg hX, ite_true]
  · intro prev newC p
    cases h : (classifyMutation prev newC p).mutation_class
    · exact Or.inl rfl
    · exact Or.inr rfl

/-- C3 witness: the classification of a concrete non-empty identical
pair is `AST_REFACTOR`, by the theorem itself. -/
theorem classifyMutation_policy_witness :
    ("const x = 1" ≠ "") ∧
      (classifyMutation (some "const x = 1") "const x = 1" "src/a.ts").mutation_class =
        .AST_REFACTOR :=
  ⟨by decide, classifyMutation_policy.2.1 "const x = 1" "src/a.ts" (by decide)⟩

/-- C9: `calculateSimilarity` is `1 - d/max(len a, len b)` where `d` is
the classic minimum-edit-operations (insertion, deletion, substitution)
distance over characters; it always lies in `[0, 1]`; empty vs. empty
gives `1.0` and empty vs. non-empty gives `0.0`. -/
theorem calculateSimilarity_spec :
    (∀ a b : String, 0 < max a.length b.length →
        calculateSimilarity a b =
          1 - (editDist a.data b.data : ℚ) / ((max a.length b.length : Nat) : ℚ))
    ∧ (∀ a b : String, 0 ≤ calculateSimilarity a b ∧ calculateSimilarity a b ≤ 1)
    ∧ calculateSimilarity "" "" = 1
    ∧ (∀ b : String, b ≠ "" → calculateSimilarity "" b = 0) := by
  have hlen : ∀ s : String, s.length = s.data.length := fun s => rfl
  have heq : ∀ a b : String, 0 < max a.length b.length →
      calculateSimilarity a b =
        1 - (editDist a.data b.data : ℚ) / ((max a.length b.length : Nat) : ℚ) := by
    intro a b h
    rw [calculateSimilarity, levenshteinDistance_eq_editDist]
    simp only [if_neg (Nat.pos_iff_ne_zero.mp h)]
  refine ⟨heq, ?_, by rfl, ?_⟩
  · intro a b
    by_cases h : max a.length b.length = 0
    · rw [calculateSimilarity, if_pos h]
      norm_num
    · have hpos : (0 : ℚ) < ((max a.length b.length : Nat) : ℚ) := by
        exact_mod_cast Nat.pos_of_ne_zero h
      rw [calculateSimilarity, if_neg h]
      have h0 : (0 : ℚ) ≤ (levenshteinDistance a b : ℚ) := Nat.cast_nonneg _
      have hb : (levenshteinDistance a b : ℚ) ≤ ((max a.length b.length : Nat) : ℚ) := by
        have h2 := editDist_le_max a.data b.data
        rw [← levenshteinDistance_eq_editDist, ← hlen, ← hlen] at h2
        exact_mod_cast h2
      have h1 : (levenshteinDistance a b : ℚ) / ((max a.length b.length : Nat) : ℚ) ≤ 1 := by
        rw [div_le_one hpos]; exact hb
      have h2 : 0 ≤ (levenshteinDistance a b : ℚ) / ((max a.length b.length : Nat) : ℚ) :=
        div_nonneg h0 (le_of_lt hpos)
      constructor
      · linarith
      · linarith
  · intro b hb
    have hblen : 0 < b.length := by
      rw [hlen]
      cases hB : b.data with
      | nil => exact absurd (by cases b; simp only at hB; rw [hB]) hb
      | cons c cs => simp
    have hz : ("" : String).length = 0 := rfl
    have hmax : max ("" : String).length b.length = b.length := by
      rw [hz]; omega
    rw [heq "" b (by rw [hmax]; exact hblen), hmax]
    have hd : editDist ("" : String).data b.data = b.data.length := editDist_nil_left _
    rw [hd, ← hlen]
    rw [div_self (by exact_mod_cast Nat.pos_iff_ne_zero.mp hblen : (b.length : ℚ) ≠ 0)]
    norm_num

/-- C9 witness: the formula instance at a concrete pair, by the theorem
itself. -/
theorem calculateSimilarity_spec_witness :
    (0 < max "ab".length "b".length) ∧
      calculateSimilarity "ab" "b" =
        1 - (editDist "ab".data "b".data : ℚ) / ((max "ab".length "b".length : Nat) : ℚ) :=
  ⟨by decide, calculateSimilarity_spec.1 "ab" "b" (by decide)⟩

/-! ### Glob scope matching (`HookEngine.matchesPattern`)

The source converts a glob to a regex by three global string replaces —
`**` → `.*`, then `*` → `[^/]*` (which also hits the `*` introduced by
the first pass, so `**` ends up as `.[^/]*`), then `/` → `\/` — and
tests the anchored regex against the separator-normalized path.  We
model the conversion as producing a list of regex atoms and implement
anchored matching with backtracking for the star atom.  The reading is
faithful for patterns whose remaining characters are regex-literal
(letters, digits, `/`, `-`, `_`); the unescaped `.` of a pattern is the
any-character metacharacter, exactly as the conversion leaves it. -/

/-- Replace backslashes with forward slashes, as `matchesPattern` does
to both the file path and the pattern. -/
def slashNormalize (s : String) : String :=
  ⟨s.data.map (fun c => if c = '\\' then '/' else c)⟩

/-- One atom of the regex produced by the glob-to-regex conversion. -/
inductive GlobAtom
  | anyChar
  | starNonSlash
  | lit (c : Char)
deriving DecidableEq, Repr

/-- First replace pass `pattern.replace(/\*\*/g, ".*")`: left-to-right,
non-overlapping, without rescanning the replacement text. -/
def starPass : List Char → List Char
  | '*' :: '*' :: rest => '.' :: '*' :: starPass rest
  | c :: rest => c :: starPass rest
  | [] => []

/-- Passes 2–3 of the conversion (`*` → `[^/]*`, `/` → `\/`) fused with
the reading of the resulting regex: `.` is any-character, `*` becomes a
non-separator run, `\/` denotes a literal separator, and everything
else is a literal. -/
def atomsOfRegexChars : List Char → List GlobAtom
  | '*' :: rest => .starNonSlash :: atomsOfRegexChars rest
  | '.' :: rest => .anyChar :: atomsOfRegexChars rest
  | c :: rest => .lit c :: atomsOfRegexChars rest
  | [] => []

/-- The glob pattern as a list of regex atoms. -/
def globToAtoms (pattern : String) : List GlobAtom :=
  atomsOfRegexChars (starPass pattern.data)

/-- Anchored regex matching of the atoms against the path characters,
with backtracking for the star atom.  Each step shrinks
`atoms.length + ds.length`, so fuel equal to that sum plus one makes the
scan total without changing its result. -/
def atomsMatchAux : Nat → List GlobAtom → List Char → Bool
  | 0, _, _ => false
  | fuel + 1, atoms, ds =>
    match atoms, ds with
    | [], [] => true
    | [], _ :: _ => false
    | .lit c :: ps, d :: rest => c = d && atomsMatchAux fuel ps rest
    | .lit _ :: _, [] => false
    | .anyChar :: ps, _ :: rest => atomsMatchAux fuel ps rest
    | .anyChar :: _, [] => false
    | .starNonSlash :: ps, [] => atomsMatchAux fuel ps []
    | .starNonSlash :: ps, d :: rest =>
      atomsMatchAux fuel ps (d :: rest) ||
        (!(d = '/') && atomsMatchAux fuel (.starNonSlash :: ps) rest)

/-- Anchored match of an atom list against a character list. -/
def atomsMatch (atoms : List GlobAtom) (ds : List Char) : Bool :=
  atomsMatchAux (atoms.length + ds.length + 1) atoms ds

/-- `HookEngine.matchesPattern`: simple pattern matching supporting
`**` and `*`. -/
def matchesPattern (filePath pattern : String) : Bool :=
  atomsMatch (globToAtoms (slashNormalize pattern)) (slashNormalize filePath).data

/-! ### Engine data model and session state -/

/-- Intent specification structure matching the architecture spec
(`OrchestrationDataModel.ActiveIntent`). -/
structure ActiveIntent where
  id : String
  name : String
  status : String
  owned_scope : List String
  constraints : List String
  acceptance_criteria : List String
  created_at : Option String := none
  updated_at : Option String := none
deriving DecidableEq, Repr

/-- One entry of the optimistic-locking cache (`fileHashCache`). -/
structure HashCacheEntry where
  hash : String
  timestamp : Nat
deriving DecidableEq, Repr

/-- The per-session `Map` from file path to hash observation, as an
association list. -/
abbrev FileHashCache := List (String × HashCacheEntry)

/-- `Map.get`. -/
def cacheLookup (cache : FileHashCache) (p : String) : Option HashCacheEntry :=
  (cache.find? (fun e => e.1 = p)).map (·.2)

/-- `Map.set`: overwrite an existing entry or add a new one. -/
def cacheSet (cache : FileHashCache) (p : String) (e : HashCacheEntry) : FileHashCache :=
  if (cache.find? (fun x => x.1 = p)).isSome then
    cache.map (fun x => if x.1 = p then (p, e) else x)
  else cache ++ [(p, e)]

/-- The workspace contents: `none` is a missing file (ENOENT). -/
abbrev FileSys := String → Option String

/-- `HASH_CACHE_TTL_MS = 5 * 60 * 1000`. -/
def HASH_CACHE_TTL_MS : Nat := 5 * 60 * 1000

/-- `HookEngine.trackFileRead` (the boundary operation
`trackObservation`): record the hash of the observed content, now. -/
def trackFileRead (cache : FileHashCache) (now : Nat) (filePath content : String) :
    FileHashCache :=
  cacheSet cache filePath ⟨computeContentHash content, now⟩

/-- `HookEngine.validateFileNotStale`: `true` means the write may
proceed.  No cached observation, or one older than the TTL window, is
treated as fresh; a missing target (ENOENT) is also treated as fresh
(the source deliberately allows the write of a new file, and fails open
on any other read error).  The source additionally deletes an expired
cache entry, which never changes any verdict and is not modelled. -/
def validateFileNotStale (cache : FileHashCache) (fs : FileSys) (now : Nat)
    (filePath : String) : Bool :=
  match cacheLookup cache filePath with
  | none => true
  | some cached =>
    if now - cached.timestamp > HASH_CACHE_TTL_MS then true
    else
      match fs filePath with
      | some currentContent => computeContentHash currentContent = cached.hash
      | none => true

/-- The engine's error-type strings as an enumeration. -/
inductive ErrType
  | intent_protected
  | architecture_missing
  | intents_missing
  | intent_not_selected
  | intent_not_found
  | stale_file
  | no_matching_intent
  | scope_violation
  | user_rejected
deriving DecidableEq, Repr

/-- The standardized structured error (`HookError`).  `message` is the
primary human-readable sentence; the `<error_details>` JSON envelope the
source additionally appends for the LLM is presentation only and is not
modelled. -/
structure HookError where
  error_type : ErrType
  message : String
  recoverable : Bool
  suggested_action : Option String
deriving DecidableEq, Repr

/-- Hook execution result (`HookResult`). -/
structure HookResult where
  shouldProceed : Bool
  structuredError : Option HookError
deriving DecidableEq, Repr

/-- The `{ shouldProceed: true }` result. -/
def proceedResult : HookResult := ⟨true, none⟩

/-- §7's error taxonomy over the engine's error-type strings.
`scope_violation` is the ScopeViolation that names a covering intent;
`no_matching_intent` is §7's ScopeViolation case "else instructs intent
creation"; `intents_missing` (empty intent registry) is the missing
planning prerequisite. -/
inductive SpecError
  | IntentNotSelected
  | IntentNotFound
  | IntentProtected
  | ScopeViolation
  | StaleFile
  | UserRejected
  | ArchitectureMissing
  | PlanningPrerequisiteMissing
deriving DecidableEq, Repr

/-- Map an engine error type to the specification's §7 taxonomy. -/
def specErrorOf : ErrType → SpecError
  | .intent_protected => .IntentProtected
  | .architecture_missing => .ArchitectureMissing
  | .intents_missing => .PlanningPrerequisiteMissing
  | .intent_not_selected => .IntentNotSelected
  | .intent_not_found => .IntentNotFound
  | .stale_file => .StaleFile
  | .no_matching_intent => .ScopeViolation
  | .scope_violation => .ScopeViolation
  | .user_rejected => .UserRejected

/-- The environment a hook call runs in: the durable sidecar state, the
workspace, the clock and the operator's answer to the (blocking) modal
approval dialog, should it be shown. -/
structure Env where
  registry : List ActiveIntent
  ignoredIntents : List String
  archExists : Bool
  fs : FileSys
  now : Nat
  userApproves : Bool

/-- The session-attached mutable fields on the task object: active
intent id, the cached intent, the per-intent approval set and the
optimistic-locking cache. -/
structure Session where
  activeIntentId : Option String := none
  activeIntent : Option ActiveIntent := none
  approvedIntentIds : List String := []
  fileHashCache : FileHashCache := []

/-- The tool-use parameters a hook inspects.  `path` stands for the
`path`/`file_path` parameter (the `apply_patch` patch-content inference
of `extractTargetFilePath` concerns inputs no claim exercises and is not
modelled). -/
structure ToolArgs where
  path : Option String := none
  intent_id : Option String := none
  command : Option String := none
  start_line : Option Nat := none
  end_line : Option Nat := none

/-- `HookEngine.extractTargetFilePath`, restricted to the direct
`path`/`file_path` parameters. -/
def extractTargetFilePath (args : ToolArgs) : Option String := args.path

/-- `OrchestrationDataModel.getIntent`. -/
def getIntent (registry : List ActiveIntent) (intentId : String) : Option ActiveIntent :=
  registry.find? (fun intent => intent.id = intentId)

/-- `HookEngine.validateScope`: the path is in scope when the intent
exists and the path matches any of its scope patterns.  (Node's
`path.normalize` is the identity on the separator-canonical relative
paths considered here; the `catch`-all fail-open arm is unreachable in
this pure model.) -/
def validateScope (registry : List ActiveIntent) (intentId filePath : String) : Bool :=
  match getIntent registry intentId with
  | none => false
  | some intent => intent.owned_scope.any (fun pat => matchesPattern filePath pat)

/-- `HookEngine.inferScopeFromFilePath`. -/
def inferScopeFromFilePath (filePath : String) : String :=
  let parts := (slashNormalize filePath).split (· = '/')
  if parts.head? = some "src" ∧ parts.length > 1 then
    "src/" ++ ((parts.drop 1).head?.getD "") ++ "/**"
  else if parts.length > 1 then
    String.intercalate "/" parts.dropLast ++ "/**"
  else "./**"

/-- `HookEngine.ensureIntentAuthorized`: approve once per intent per
task session; otherwise show the blocking modal dialog and record an
approval. -/
def ensureIntentAuthorized (env : Env) (sess : Session) (intent : ActiveIntent) :
    Bool × Session :=
  if sess.approvedIntentIds.contains intent.id then (true, sess)
  else if env.userApproves then
    (true, { sess with approvedIntentIds := sess.approvedIntentIds ++ [intent.id] })
  else (false, sess)

/-- The destructive tools requiring intent selection (Phase 2). -/
def destructiveTools : List String :=
  ["write_to_file", "edit_file", "apply_diff", "apply_patch", "edit",
   "search_replace", "search_and_replace", "execute_command"]

/-- The file-mutating tools subject to staleness and scope validation. -/
def fileMutatingTools : List String :=
  ["write_to_file", "edit_file", "apply_diff", "apply_patch", "edit",
   "search_replace", "search_and_replace"]

/-- The `architecture_missing` error (Plan-First strategy). -/
def architectureMissingError : HookError :=
  ⟨.architecture_missing,
    "docs/Architecture.md is required but not found. Please create docs/Architecture.md with your project architecture and come again.",
    true,
    some "Create docs/Architecture.md file with project architecture, then try again"⟩

/-- The `intent_not_selected` error: the remediation it names is the
intent-selection call (`select_active_intent`). -/
def intentNotSelectedError : HookError :=
  ⟨.intent_not_selected,
    "You must cite a valid active Intent ID. Call select_active_intent(intent_id) before making code changes.",
    true,
    some "Call select_active_intent(intent_id) with one of the available intent IDs from active_intents.yaml"⟩

/-- The `stale_file` structured error `preHook` returns when the
optimistic-locking check fails. -/
def staleFileError (filePath : String) : HookError :=
  ⟨.stale_file,
    "File " ++ filePath ++ " has been modified since it was last read. Please re-read the file before making changes.",
    true,
    some "Re-read the file and retry"⟩

/-- The `user_rejected` error produced when the modal authorization is
declined. -/
def userRejectedError : HookError :=
  ⟨.user_rejected,
    "User rejected the intent evolution request.",
    false,
    some "User must approve the operation or select a different approach"⟩

/-- `HookEngine.preHook`: the pre-operation gate.  Returns the hook
result together with the updated session (intent caching and approval
recording are session mutations). -/
def preHook (env : Env) (sess : Session) (toolName : String) (args : ToolArgs) :
    HookResult × Session :=
  if toolName = "select_active_intent" then
    match args.intent_id with
    | some iid =>
      if iid ≠ "" && env.ignoredIntents.contains iid then
        (⟨false, some ⟨.intent_protected,
          "Intent \"" ++ iid ++ "\" is protected and cannot be modified. This intent is listed in .orchestration/.intentignore.",
          false,
          some "Select a different intent or ask user to remove this intent from .intentignore"⟩⟩,
          sess)
      else (proceedResult, sess)
    | none => (proceedResult, sess)
  else if toolName = "create_intent" then
    (proceedResult, sess)
  else if destructiveTools.contains toolName then
    match sess.activeIntentId with
    | none =>
      if !env.archExists then (⟨false, some architectureMissingError⟩, sess)
      else if env.registry.isEmpty then
        (⟨false, some ⟨.intents_missing,
          "No active intent selected. docs/Architecture.md exists but active_intents.yaml is empty.",
          true,
          some "Read docs/Architecture.md, use create_intent() to create intents based on it, then call select_active_intent(intent_id)"⟩⟩,
          sess)
      else (⟨false, some intentNotSelectedError⟩, sess)
    | some activeIntentId =>
      let resolved :=
        match sess.activeIntent with
        | some cached => some cached
        | none => getIntent env.registry activeIntentId
      match resolved with
      | none =>
        (⟨false, some ⟨.intent_not_found,
          "Intent \"" ++ activeIntentId ++ "\" not found in active_intents.yaml. Please select a valid intent ID.",
          true,
          some ("Use select_active_intent(intent_id) with one of the available intent IDs: " ++
            String.intercalate ", " (env.registry.map (fun i => i.id)))⟩⟩,
          sess)
      | some activeIntent =>
        let sess1 := { sess with activeIntent := some activeIntent }
        if fileMutatingTools.contains toolName then
          match extractTargetFilePath args with
          | some filePath =>
            if !validateFileNotStale sess1.fileHashCache env.fs env.now filePath then
              (⟨false, some (staleFileError filePath)⟩, sess1)
            else if !validateScope env.registry activeIntentId filePath then
              match env.registry.find? (fun intent => validateScope env.registry intent.id filePath) with
              | none =>
                if !env.archExists then (⟨false, some architectureMissingError⟩, sess1)
                else
                  (⟨false, some ⟨.no_matching_intent,
                    "No active intent whose owned scope includes " ++ filePath ++ ". Create a new intent based on docs/Architecture.md.",
                    true,
                    some ("Use create_intent() to create a new intent for " ++
                      inferScopeFromFilePath filePath ++
                      " based on docs/Architecture.md, then select it")⟩⟩,
                    sess1)
              | some matchingIntent =>
                (⟨false, some ⟨.scope_violation,
                  "Scope Violation: " ++ activeIntentId ++ " is not authorized to edit " ++
                    filePath ++ ". Use intent " ++ matchingIntent.id ++ " instead.",
                  true,
                  some ("Call select_active_intent(" ++ matchingIntent.id ++
                    ") to use the intent that covers " ++ filePath)⟩⟩,
                  sess1)
            else
              let auth := ensureIntentAuthorized env sess1 activeIntent
              if auth.1 then (proceedResult, auth.2)
              else (⟨false, some userRejectedError⟩, auth.2)
          | none => (proceedResult, sess1)
        else
          let auth := ensureIntentAuthorized env sess1 activeIntent
          if auth.1 then (proceedResult, auth.2)
          else (⟨false, some userRejectedError⟩, auth.2)
  else (proceedResult, sess)

/-! ### Post-hook: the change ledger (`agent_trace.jsonl`) -/

/-- One `{start_line, end_line, content_hash}` range of a trace file. -/
structure AgentTraceRange where
  start_line : Nat
  end_line : Nat
  content_hash : String
deriving DecidableEq, Repr

/-- A `related` back-reference of a trace conversation. -/
structure AgentTraceRelated where
  type : String
  value : String
deriving DecidableEq, Repr

/-- A trace conversation: contributor identity, ranges and
back-references. -/
structure AgentTraceConversation where
  url : String
  entity_type : String
  model_identifier : String
  ranges : List AgentTraceRange
  related : List AgentTraceRelated
deriving DecidableEq, Repr

/-- One file of a trace entry. -/
structure AgentTraceFile where
  relative_path : String
  conversations : List AgentTraceConversation
deriving DecidableEq, Repr

/-- Agent trace entry structure matching the architecture spec
(`OrchestrationDataModel.AgentTraceEntry`). -/
structure AgentTraceEntry where
  id : String
  timestamp : String
  tool_name : Option String
  mutation_class : Option MutationClass
  revision_id : String
  files : List AgentTraceFile
deriving DecidableEq, Repr

/-- `OrchestrationDataModel.appendTraceEntry`: one atomic append of one
complete record to `agent_trace.jsonl`. -/
def appendTraceEntry (ledger : List AgentTraceEntry) (entry : AgentTraceEntry) :
    List AgentTraceEntry :=
  ledger ++ [entry]

/-- The ambient inputs of the post-hook: the workspace after the
operation, the diff view's original content (the classifier's previous
content), the git revision (`"unknown"` when unavailable), the
timestamp, the generated entry id, task and model identifiers, and the
clock. -/
structure PostEnv where
  fs : FileSys
  oldContent : Option String
  gitRevision : String
  nowIso : String
  entryId : String
  taskId : String
  modelId : String
  now : Nat

/-- `HookEngine.logTraceEntry`: build and append one trace entry.
Without a resolvable file path nothing is appended; an unreadable file
is logged with empty content and the default line range (the source's
`try` aborts before the range override in that case). -/
def logTraceEntry (env : PostEnv) (toolName : String) (args : ToolArgs)
    (intentId : String) (ledger : List AgentTraceEntry) : List AgentTraceEntry :=
  match args.path with
  | none => ledger
  | some fp =>
    let read :=
      match env.fs fp with
      | none => ("", (none : Option String), 1, 1)
      | some content =>
        let lines := content.split (· = '\n')
        match args.start_line, args.end_line with
        | some s, some e =>
          (content, env.oldContent, if s = 0 then 1 else s, if e = 0 then lines.length else e)
        | _, _ => (content, env.oldContent, 1, lines.length)
    let fileContent := read.1
    let startLine := read.2.2.1
    let endLine := read.2.2.2
    let lines := fileContent.split (· = '\n')
    let relevantLines := (lines.take endLine).drop (startLine - 1)
    let codeBlock := String.intercalate "\n" relevantLines
    let contentHash := computeContentHash codeBlock
    let classification := classifyMutation read.2.1 fileContent fp
    let entry : AgentTraceEntry :=
      { id := env.entryId
        timestamp := env.nowIso
        tool_name := some toolName
        mutation_class := some classification.mutation_class
        revision_id := env.gitRevision
        files := [{ relative_path := fp
                    conversations := [{ url := "task-" ++ env.taskId
                                        entity_type := "AI"
                                        model_identifier := env.modelId
                                        ranges := [{ start_line := startLine
                                                     end_line := endLine
                                                     content_hash := "sha256:" ++ contentHash }]
                                        related := [{ type := "intent", value := intentId }] }] }] }
    appendTraceEntry ledger entry

/-- `HookEngine.postHook`: after a successful destructive operation
under an active intent, append a trace entry and refresh the hash-cache
observation for the written path; in every other case both the ledger
and the cache are left untouched. -/
def postHook (env : PostEnv) (sess : Session) (toolName : String) (args : ToolArgs)
    (success : Bool) (ledger : List AgentTraceEntry) :
    List AgentTraceEntry × FileHashCache :=
  match sess.activeIntentId with
  | some intentId =>
    if destructiveTools.contains toolName && success then
      let newLedger := logTraceEntry env toolName args intentId ledger
      let newCache :=
        match args.path with
        | some fp =>
          match env.fs fp with
          | some newContent => trackFileRead sess.fileHashCache env.now fp newContent
          | none => sess.fileHashCache
        | none => sess.fileHashCache
      (newLedger, newCache)
    else (ledger, sess.fileHashCache)
  | none => (ledger, sess.fileHashCache)

/-! ### Intent selection (`SelectActiveIntentTool.execute`) -/

/-- The observable outcome of `SelectActiveIntentTool.execute`. -/
inductive SelectResult
  | missingParam
  | protectedErr
  | notFound
  | ok (intent : ActiveIntent)
deriving DecidableEq, Repr

/-- `SelectActiveIntentTool.execute`: the missing-parameter check (a JS
falsy test, so the empty string also counts as missing), then the
protection check against `.intentignore`, then the registry lookup; on
success the session's active intent is set. -/
def selectIntentExec (env : Env) (sess : Session) (intentId : Option String) :
    SelectResult × Session :=
  match intentId with
  | none => (.missingParam, sess)
  | some iid =>
    if iid = "" then (.missingParam, sess)
    else if env.ignoredIntents.contains iid then (.protectedErr, sess)
    else
      match getIntent env.registry iid with
      | none => (.notFound, sess)
      | some intent =>
        (.ok intent, { sess with activeIntentId := some iid, activeIntent := some intent })

/-! ### Helper lemmas about the cache and the stale check -/

theorem find?_map_cacheSet (cache : FileHashCache) (p : String) (e : HashCacheEntry)
    (h : (cache.find? (fun x => x.1 = p)).isSome = true) :
    (cache.map (fun x => if x.1 = p then (p, e) else x)).find? (fun x => x.1 = p) =
      some (p, e) := by
  induction cache with
  | nil => simp at h
  | cons x rest ih =>
    by_cases hx : x.1 = p
    · simp [List.find?_cons, hx]
    · rw [List.map_cons, if_neg hx, List.find?_cons_of_neg _ (by simpa using hx)]
      rw [List.find?_cons_of_neg _ (by simpa using hx)] at h
      exact ih h

/-- After `Map.set`, looking the key up returns the new entry. -/
theorem cacheLookup_cacheSet_self (cache : FileHashCache) (p : String) (e : HashCacheEntry) :
    cacheLookup (cacheSet cache p e) p = some e := by
  unfold cacheLookup cacheSet
  split
  · rename_i h
    rw [find?_map_cacheSet cache p e h]
    rfl
  · rename_i h
    have hnone : cache.find? (fun x => x.1 = p) = none := by
      cases hf : cache.find? (fun x => x.1 = p) with
      | none => rfl
      | some v => rw [hf] at h; simp at h
    rw [List.find?_append, hnone]
    simp

/-- Looking up the path just observed by `trackFileRead`. -/
theorem cacheLookup_trackFileRead_self (cache : FileHashCache) (now : Nat)
    (p content : String) :
    cacheLookup (trackFileRead cache now p content) p =
      some ⟨computeContentHash content, now⟩ :=
  cacheLookup_cacheSet_self cache p _

/-- A missing target (ENOENT) never fails the stale check. -/
theorem validateFileNotStale_of_missing (cache : FileHashCache) (fs : FileSys)
    (now : Nat) (path : String) (h : fs path = none) :
    validateFileNotStale cache fs now path = true := by
  unfold validateFileNotStale
  cases cacheLookup cache path with
  | none => rfl
  | some cached =>
    simp only
    split
    · rfl
    · rw [h]

/-- Within the freshness window, an out-of-band change of the target's
content away from the observed content fails the stale check. -/
theorem validateFileNotStale_stale (cache : FileHashCache) (fs : FileSys) (now : Nat)
    (path : String) (entry : HashCacheEntry)
    (hc : cacheLookup cache path = some entry)
    (ht : now - entry.timestamp ≤ HASH_CACHE_TTL_MS)
    (hv : ∃ current, fs path = some current ∧ computeContentHash current ≠ entry.hash) :
    validateFileNotStale cache fs now path = false := by
  obtain ⟨current, hcur, hne⟩ := hv
  unfold validateFileNotStale
  rw [hc]
  simp only
  rw [if_neg (by omega), hcur]
  simp [hne]

/-- A cached observation matching the current content passes the stale
check. -/
theorem validateFileNotStale_fresh (cache : FileHashCache) (fs : FileSys) (now : Nat)
    (path : String) (entry : HashCacheEntry)
    (hc : cacheLookup cache path = some entry)
    (hv : ∃ current, fs path = some current ∧ computeContentHash current = entry.hash) :
    validateFileNotStale cache fs now path = true := by
  obtain ⟨current, hcur, heq⟩ := hv
  unfold validateFileNotStale
  rw [hc]
  simp only
  split
  · rfl
  · rw [hcur]
    simp [heq]

/-! ### Branch walks of `preHook` for a write with a resolved intent -/

theorem preHook_write_stale (env : Env) (sess : Session) (path iid : String)
    (intent : ActiveIntent)
    (h1 : sess.activeIntentId = some iid)
    (h2 : sess.activeIntent = some intent)
    (h3 : validateFileNotStale sess.fileHashCache env.fs env.now path = false) :
    (preHook env sess "write_to_file" { path := some path }).1 =
      ⟨false, some (staleFileError path)⟩ := by
  unfold preHook
  rw [if_neg (by decide), if_neg (by decide), if_pos (by decide), h1]
  simp only [h2, extractTargetFilePath, h3]
  simp
  rw [if_pos (show ("write_to_file" : String) ∈ fileMutatingTools from by decide)]

theorem preHook_write_proceeds (env : Env) (sess : Session) (path iid : String)
    (intent : ActiveIntent)
    (h1 : sess.activeIntentId = some iid)
    (h2 : sess.activeIntent = some intent)
    (h3 : validateFileNotStale sess.fileHashCache env.fs env.now path = true)
    (h4 : validateScope env.registry iid path = true)
    (h5 : sess.approvedIntentIds.contains intent.id = true) :
    (preHook env sess "write_to_file" { path := some path }).1 = proceedResult := by
  unfold preHook
  rw [if_neg (by decide), if_neg (by decide), if_pos (by decide), h1]
  simp only [h2, extractTargetFilePath, h3, h4, ensureIntentAuthorized, h5]
  simp

/-! ### Concrete fixtures for the scenario claims -/

/-- A sample intent owning `src/auth/**`. -/
def authIntent : ActiveIntent :=
  { id := "INT-1", name := "Auth middleware", status := "TODO",
    owned_scope := ["src/auth/**"], constraints := [], acceptance_criteria := [] }

/-- Environment with one registered intent, no protected intents, an
architecture document, and an empty workspace. -/
def authEnv : Env :=
  { registry := [authIntent], ignoredIntents := [], archExists := true,
    fs := fun _ => none, now := 1000, userApproves := false }

/-- A session that has selected and approved `INT-1`. -/
def authSession : Session :=
  { activeIntentId := some "INT-1", activeIntent := some authIntent,
    approvedIntentIds := ["INT-1"], fileHashCache := [] }

/-- Like `authEnv`, but the target file carries out-of-band content. -/
def outOfBandEnv : Env :=
  { authEnv with fs := fun p => if p = "src/auth/mw.ts" then some "v2" else none }

/-- `authEnv` without the architecture document. -/
def noArchEnv : Env := { authEnv with archExists := false }

/-- Environment whose protected set contains an id that is absent from
the registry. -/
def protectedEnv : Env := { authEnv with registry := [], ignoredIntents := ["INT-9"] }

/-- Ambient post-hook inputs for the concrete scenarios. -/
def samplePostEnv : PostEnv :=
  { fs := fun _ => none, oldContent := none, gitRevision := "unknown",
    nowIso := "2026-02-21T00:00:00.000Z", entryId := "trace-1", taskId := "t1",
    modelId := "m1", now := 0 }

/-! ### The claims -/

/-- C10: `preCheck` of `create_intent` always proceeds, for every
session state and every tool-use payload: intent creation is never
blocked by the intent gate, the staleness check, scope validation, or
the approval gate (the `create_intent` branch of `preHook` returns
`shouldProceed` unconditionally, before any of those checks run). -/
theorem create_intent_always_proceeds (env : Env) (sess : Session) (args : ToolArgs) :
    preHook env sess "create_intent" args = (proceedResult, sess) := rfl

/-- C8: selecting an intent in the ProtectedSet fails with
IntentProtected regardless of the registry: both in
`SelectActiveIntentTool.execute` and in the `select_active_intent`
branch of `preHook`, the protection check is decided before any registry
lookup, so the quantification over `env` covers in particular every
env whose registry does not contain the id (which would otherwise be
IntentNotFound). -/
theorem protected_intent_selection :
    (∀ (env : Env) (sess : Session) (iid : String),
        iid ≠ "" →
        env.ignoredIntents.contains iid = true →
        (selectIntentExec env sess (some iid)).1 = .protectedErr)
    ∧ (∀ (env : Env) (sess : Session) (args : ToolArgs) (iid : String),
        args.intent_id = some iid →
        iid ≠ "" →
        env.ignoredIntents.contains iid = true →
        (preHook env sess "select_active_intent" args).1.structuredError.map
            (fun e => e.error_type) = some .intent_protected ∧
          (preHook env sess "select_active_intent" args).1.shouldProceed = false) := by
  constructor
  · intro env sess iid hne hmem
    unfold selectIntentExec
    dsimp only
    rw [if_neg hne, if_pos hmem]
  · intro env sess args iid hargs hne hmem
    unfold preHook
    rw [if_pos rfl, hargs]
    dsimp only
    rw [if_pos (show (decide ¬iid = "" && env.ignoredIntents.contains iid) = true by
      rw [decide_eq_true hne, hmem]; rfl)]
    exact ⟨rfl, rfl⟩

/-- C8 witness: a protected id that is absent from the registry fails
with IntentProtected (not IntentNotFound), by the theorem itself. -/
theorem protected_intent_selection_witness :
    (selectIntentExec protectedEnv {} (some "INT-9")).1 = .protectedErr ∧
      (preHook protectedEnv {} "select_active_intent"
          { intent_id := some "INT-9" }).1.structuredError.map
        (fun e => e.error_type) = some .intent_protected :=
  ⟨protected_intent_selection.1 protectedEnv {} "INT-9" (by decide) (by decide),
    (protected_intent_selection.2 protectedEnv {} { intent_id := some "INT-9" } "INT-9"
      rfl (by decide) (by decide)).1⟩

/-- C7: `postRecord` of a mutating operation without an active intent is
a no-op on the ledger (and on the hash cache); likewise whenever the
operation's outcome is not success. -/
theorem postRecord_noop :
    (∀ (env : PostEnv) (sess : Session) (toolName : String) (args : ToolArgs)
        (success : Bool) (ledger : List AgentTraceEntry),
        sess.activeIntentId = none →
        postHook env sess toolName args success ledger = (ledger, sess.fileHashCache))
    ∧ (∀ (env : PostEnv) (sess : Session) (toolName : String) (args : ToolArgs)
        (ledger : List AgentTraceEntry),
        postHook env sess toolName args false ledger = (ledger, sess.fileHashCache)) := by
  constructor
  · intro env sess toolName args success ledger h
    unfold postHook
    rw [h]
  · intro env sess toolName args ledger
    unfold postHook
    cases sess.activeIntentId with
    | none => rfl
    | some iid => simp

/-- C7 witness: concrete no-ops, by the theorem itself. -/
theorem postRecord_noop_witness :
    postHook samplePostEnv {} "write_to_file" { path := some "src/auth/mw.ts" } true [] =
      ([], ({} : Session).fileHashCache) :=
  postRecord_noop.1 samplePostEnv {} "write_to_file" { path := some "src/auth/mw.ts" }
    true [] rfl

/-- C6: the change ledger is append-only.  `appendTraceEntry` — the only
ledger-writing operation of this core — appends exactly one complete
record, leaving every existing entry in place; `postHook`, the sole
caller, therefore never shortens the ledger nor mutates an existing
entry, and appends at most one record.  (All other modelled operations,
`preHook` and `selectIntentExec`, do not touch the ledger at all.) -/
theorem ledger_append_only :
    (∀ (ledger : List AgentTraceEntry) (entry : AgentTraceEntry),
        appendTraceEntry ledger entry = ledger ++ [entry] ∧
          (appendTraceEntry ledger entry).length = ledger.length + 1 ∧
          (appendTraceEntry ledger entry).take ledger.length = ledger)
    ∧ (∀ (env : PostEnv) (sess : Session) (toolName : String) (args : ToolArgs)
        (success : Bool) (ledger : List AgentTraceEntry),
        ((postHook env sess toolName args success ledger).1.take ledger.length = ledger) ∧
          ((postHook env sess toolName args success ledger).1.length = ledger.length ∨
            (postHook env sess toolName args success ledger).1.length = ledger.length + 1)) := by
  have happend : ∀ (ledger : List AgentTraceEntry) (entry : AgentTraceEntry),
      appendTraceEntry ledger entry = ledger ++ [entry] ∧
        (appendTraceEntry ledger entry).length = ledger.length + 1 ∧
        (appendTraceEntry ledger entry).take ledger.length = ledger := by
    intro ledger entry
    refine ⟨rfl, by simp [appendTraceEntry], ?_⟩
    rw [appendTraceEntry, List.take_left]
  have hlog : ∀ (env : PostEnv) (toolName : String) (args : ToolArgs) (iid : String)
      (ledger : List AgentTraceEntry),
      logTraceEntry env toolName args iid ledger = ledger ∨
        ∃ entry, logTraceEntry env toolName args iid ledger = ledger ++ [entry] := by
    intro env toolName args iid ledger
    unfold logTraceEntry
    cases args.path with
    | none => exact Or.inl rfl
    | some fp => exact Or.inr ⟨_, rfl⟩
  refine ⟨happend, ?_⟩
  intro env sess toolName args success ledger
  unfold postHook
  cases hA : sess.activeIntentId with
  | none => simp
  | some iid =>
    dsimp only
    by_cases hcond : (destructiveTools.contains toolName && success) = true
    · rw [if_pos hcond]
      dsimp only
      rcases hlog env toolName args iid ledger with h | ⟨entry, h⟩
      · rw [h]
        simp
      · rw [h]
        exact ⟨List.take_left _ _, Or.inr (by simp)⟩
    · rw [if_neg hcond]
      simp

/-- Session with a cached observation of `v1` for `src/auth/mw.ts`
taken at time 0 (inside the freshness window at `authEnv.now = 1000`). -/
def removedTargetSession : Session :=
  { authSession with
    fileHashCache := [("src/auth/mw.ts", ⟨computeContentHash "v1", 0⟩)] }

/-- C1 counterexample: the path `src/auth/mw.ts` has a cached
observation inside the freshness window and the target has been removed
(`authEnv.fs` returns `none`); contrary to the claim, the freshness
check reports the file as fresh (`valid = true`) — the source's ENOENT
arm deliberately allows the write of a new file — and `preCheck` of the
write proceeds instead of being denied with StaleFile. -/
theorem stale_removed_target_counterexample :
    validateFileNotStale removedTargetSession.fileHashCache authEnv.fs authEnv.now
        "src/auth/mw.ts" = true ∧
      (preHook authEnv removedTargetSession "write_to_file"
          { path := some "src/auth/mw.ts" }).1 = proceedResult := by
  constructor
  · decide
  · decide

/-- C1 as amended: for every path with a cached observation — indeed for
any cache state — whose target cannot be read because it has been
removed, the freshness check treats the target as fresh (fail-open), and
`preCheck` of a write to that path is not denied: with the intent
resolved, the path in scope and the intent approved, it proceeds. -/
theorem stale_removed_target_amended :
    (∀ (cache : FileHashCache) (fs : FileSys) (now : Nat) (path : String),
        fs path = none →
        validateFileNotStale cache fs now path = true)
    ∧ (∀ (env : Env) (sess : Session) (path iid : String) (intent : ActiveIntent),
        sess.activeIntentId = some iid →
        sess.activeIntent = some intent →
        env.fs path = none →
        validateScope env.registry iid path = true →
        sess.approvedIntentIds.contains intent.id = true →
        (preHook env sess "write_to_file" { path := some path }).1 = proceedResult) := by
  refine ⟨validateFileNotStale_of_missing, ?_⟩
  intro env sess path iid intent h1 h2 h3 h4 h5
  exact preHook_write_proceeds env sess path iid intent h1 h2
    (validateFileNotStale_of_missing _ _ _ _ h3) h4 h5

/-- C1 witness: the amended statement at the concrete scenario, by the
theorem itself. -/
theorem stale_removed_target_amended_witness :
    validateFileNotStale removedTargetSession.fileHashCache authEnv.fs authEnv.now
        "src/auth/mw.ts" = true ∧
      (preHook authEnv removedTargetSession "write_to_file"
          { path := some "src/auth/mw.ts" }).1 = proceedResult :=
  ⟨stale_removed_target_amended.1 removedTargetSession.fileHashCache authEnv.fs
      authEnv.now "src/auth/mw.ts" rfl,
    stale_removed_target_amended.2 authEnv removedTargetSession "src/auth/mw.ts"
      "INT-1" authIntent rfl rfl rfl (by decide) (by decide)⟩

/-- C2 counterexample: a mutating operation with `activeIntentId` unset
is not always denied with IntentNotSelected — when `docs/Architecture.md`
is missing, the engine denies with `architecture_missing` instead (and
with an empty registry it denies with `intents_missing`). -/
theorem intent_gate_counterexample :
    ((preHook noArchEnv {} "write_to_file" {}).1.structuredError.map
        (fun e => e.error_type) = some .architecture_missing) ∧
      ErrType.architecture_missing ≠ ErrType.intent_not_selected := by
  constructor
  · decide
  · decide

/-- C2 as amended: for every mutating (destructive) operation, when the
architecture document exists and the intent registry is non-empty,
`preCheck` with `activeIntentId` unset fails with IntentNotSelected, and
the returned error names the exact remediation action — calling
`select_active_intent` (with intent creation as the upstream remedy
surfaced by the `architecture_missing` / `intents_missing` branches). -/
theorem intent_gate_amended :
    (∀ (env : Env) (sess : Session) (toolName : String) (args : ToolArgs),
        destructiveTools.contains toolName = true →
        sess.activeIntentId = none →
        env.archExists = true →
        env.registry ≠ [] →
        (preHook env sess toolName args).1 = ⟨false, some intentNotSelectedError⟩)
    ∧ intentNotSelectedError.error_type = .intent_not_selected
    ∧ intentNotSelectedError.suggested_action =
        some "Call select_active_intent(intent_id) with one of the available intent IDs from active_intents.yaml" := by
  refine ⟨?_, rfl, rfl⟩
  intro env sess toolName args hmem h0 harch hreg
  have hne1 : ¬ toolName = "select_active_intent" := by
    intro he
    rw [he] at hmem
    exact absurd hmem (by decide)
  have hne2 : ¬ toolName = "create_intent" := by
    intro he
    rw [he] at hmem
    exact absurd hmem (by decide)
  unfold preHook
  rw [if_neg hne1, if_neg hne2, if_pos hmem, h0]
  dsimp only
  rw [harch]
  rw [if_neg (by simp)]
  rw [if_neg (by simp [List.isEmpty_iff, hreg])]

/-- C2 witness: the amended statement at a concrete scenario, by the
theorem itself. -/
theorem intent_gate_amended_witness :
    (preHook authEnv {} "write_to_file" {}).1 = ⟨false, some intentNotSelectedError⟩ :=
  intent_gate_amended.1 authEnv {} "write_to_file" {} (by decide) rfl rfl (by decide)

/-- C4: optimistic locking.  After observing `v1` for a path within the
freshness window, an out-of-band change of the on-disk content to
`v2 ≠ v1` makes `preCheck` of a write to that path fail with StaleFile;
after re-observing `v2`, the same `preCheck` no longer reports staleness
and (with scope and approval) proceeds.  The last conjunct places the
engine's `stale_file` error in the spec's StaleFile taxonomy. -/
theorem optimistic_locking :
    (∀ (env : Env) (sess : Session) (path v1 v2 iid : String) (intent : ActiveIntent)
        (now0 : Nat),
        sess.activeIntentId = some iid →
        sess.activeIntent = some intent →
        env.fs path = some v2 →
        v2 ≠ v1 →
        env.now - now0 ≤ HASH_CACHE_TTL_MS →
        (preHook env
            { sess with fileHashCache := trackFileRead sess.fileHashCache now0 path v1 }
            "write_to_file" { path := some path }).1 =
          ⟨false, some (staleFileError path)⟩)
    ∧ (∀ (env : Env) (sess : Session) (path v2 iid : String) (intent : ActiveIntent)
        (now1 : Nat),
        sess.activeIntentId = some iid →
        sess.activeIntent = some intent →
        env.fs path = some v2 →
        validateScope env.registry iid path = true →
        sess.approvedIntentIds.contains intent.id = true →
        (preHook env
            { sess with fileHashCache := trackFileRead sess.fileHashCache now1 path v2 }
            "write_to_file" { path := some path }).1 = proceedResult)
    ∧ (∀ path, specErrorOf (staleFileError path).error_type = SpecError.StaleFile) := by
  refine ⟨?_, ?_, fun _ => rfl⟩
  · intro env sess path v1 v2 iid intent now0 h1 h2 hfs hne ht
    exact preHook_write_stale env
      { sess with fileHashCache := trackFileRead sess.fileHashCache now0 path v1 }
      path iid intent h1 h2
      (validateFileNotStale_stale _ _ _ _ ⟨computeContentHash v1, now0⟩
        (cacheLookup_trackFileRead_self sess.fileHashCache now0 path v1) ht
        ⟨v2, hfs, fun hc => hne hc⟩)
  · intro env sess path v2 iid intent now1 h1 h2 hfs h4 h5
    exact preHook_write_proceeds env
      { sess with fileHashCache := trackFileRead sess.fileHashCache now1 path v2 }
      path iid intent h1 h2
      (validateFileNotStale_fresh _ _ _ _ ⟨computeContentHash v2, now1⟩
        (cacheLookup_trackFileRead_self sess.fileHashCache now1 path v2)
        ⟨v2, hfs, rfl⟩)
      h4 h5

/-- C4 witness: the concrete out-of-band scenario, by the theorem
itself: observe `v1` at time 0, the disk holds `v2` at time 1000 —
denied with the stale-file error; re-observe `v2` — allowed. -/
theorem optimistic_locking_witness :
    ((preHook outOfBandEnv
        { authSession with
          fileHashCache := trackFileRead authSession.fileHashCache 0 "src/auth/mw.ts" "v1" }
        "write_to_file" { path := some "src/auth/mw.ts" }).1 =
      ⟨false, some (staleFileError "src/auth/mw.ts")⟩) ∧
    ((preHook outOfBandEnv
        { authSession with
          fileHashCache := trackFileRead authSession.fileHashCache 900 "src/auth/mw.ts" "v2" }
        "write_to_file" { path := some "src/auth/mw.ts" }).1 = proceedResult) :=
  ⟨optimistic_locking.1 outOfBandEnv authSession "src/auth/mw.ts" "v1" "v2" "INT-1"
      authIntent 0 rfl rfl (by decide) (by decide) (by decide),
    optimistic_locking.2.1 outOfBandEnv authSession "src/auth/mw.ts" "v2" "INT-1"
      authIntent 900 rfl rfl (by decide) (by decide) (by decide)⟩

/-- C5: scope validation is a logical OR over the intent's patterns —
the path is in scope iff it matches at least one pattern, an unmatched
path (or an unresolvable intent) is out of scope (fails closed) — and in
the concrete scenario an intent scoped to `src/auth/**` allows a write
to `src/auth/mw.ts` (after selection and approval) and denies a write to
`src/billing/x.ts` with the spec's ScopeViolation (the engine's
`no_matching_intent` error, since no other registered intent covers the
path; §7's ScopeViolation "else instructs intent creation"). -/
theorem scope_or_semantics :
    (∀ (registry : List ActiveIntent) (intentId filePath : String) (intent : ActiveIntent),
        getIntent registry intentId = some intent →
        (validateScope registry intentId filePath = true ↔
          ∃ pat ∈ intent.owned_scope, matchesPattern filePath pat = true))
    ∧ (∀ (registry : List ActiveIntent) (intentId filePath : String),
        getIntent registry intentId = none →
        validateScope registry intentId filePath = false)
    ∧ (preHook authEnv authSession "write_to_file"
        { path := some "src/auth/mw.ts" }).1 = proceedResult
    ∧ (preHook authEnv authSession "write_to_file"
        { path := some "src/billing/x.ts" }).1.shouldProceed = false
    ∧ ((preHook authEnv authSession "write_to_file"
          { path := some "src/billing/x.ts" }).1.structuredError.map
        (fun e => specErrorOf e.error_type)) = some .ScopeViolation := by
  refine ⟨?_, ?_, by decide, by decide, by decide⟩
  · intro registry intentId filePath intent h
    unfold validateScope
    rw [h]
    exact List.any_eq_true
  · intro registry intentId filePath h
    unfold validateScope
    rw [h]

/-- C5 witness: the OR characterization instantiated at the concrete
registry, by the theorem itself. -/
theorem scope_or_semantics_witness :
    getIntent [authIntent] "INT-1" = some authIntent ∧
      (validateScope [authIntent] "INT-1" "src/auth/mw.ts" = true ↔
        ∃ pat ∈ authIntent.owned_scope, matchesPattern "src/auth/mw.ts" pat = true) :=
  ⟨by decide, scope_or_semantics.1 [authIntent] "INT-1" "src/auth/mw.ts" authIntent
    (by decide)⟩

end Orchestration
